import Mathlib

/-!
Shallow embedding of the ultimate tic-tac-toe server engine
(`src/index.ts` of vkarchevskyi/tic-tac-toe-node).

A cell mark (`Sign` in the source) is `'X' | 'O' | ''`; the empty string is
embedded as `Sign.E`.  A small board is a 3×3 grid `Sign[][]`, the main board
an array of nine small boards.  JavaScript array reads `b[i]` are embedded
with `List.getD` (total, with the empty list / empty mark as default); the
fallible variants used for the bounds-safety claim are embedded separately
with `List.get?`.  The socket handlers `make-move` and `restart-game` are
embedded as pure functions from a room map (room code to game) to an updated
room map plus a list of emitted messages.
-/

namespace UltimateTTT

/-- `type Sign = 'X' | 'O' | ''`; `E` stands for the empty string. -/
inductive Sign where
  | X
  | O
  | E
deriving DecidableEq, Repr

abbrev SmallBoard := List (List Sign)

abbrev Board := List SmallBoard

/-- `const boardSize: number = 9`. -/
def boardSize : Nat := 9

/-- `const boardRowQuantity: number = 3`. -/
def boardRowQuantity : Nat := 3

/-- Accessor for `b[r][c]` on a small board (JS read, embedded totally). -/
def cellAt (b : SmallBoard) (r c : Nat) : Sign :=
  (b.getD r []).getD c Sign.E

/-- Accessor for `board[i][r][c]` on the main board. -/
def cellAt3 (bd : Board) (i r c : Nat) : Sign :=
  cellAt (bd.getD i []) r c

/-- `getEmptyCellIndexes`: for each row (outer index `i`) push the indices
`j + boardRowQuantity * i` of the empty cells of that row. -/
def getEmptyCellIndexes (board : SmallBoard) : List Nat :=
  board.enum.flatMap (fun p =>
    p.2.enum.filterMap (fun q =>
      if q.2 = Sign.E then some (q.1 + boardRowQuantity * p.1) else none))

/-- `getEmptySmallBoard`. -/
def getEmptySmallBoard : SmallBoard :=
  [[Sign.E, Sign.E, Sign.E],
   [Sign.E, Sign.E, Sign.E],
   [Sign.E, Sign.E, Sign.E]]

/-- `getDefaultBoard`: push `boardSize` empty small boards. -/
def getDefaultBoard : Board :=
  List.replicate boardSize getEmptySmallBoard

/-- `checkSmallBoardWin`: any of the 3 rows, 3 columns, or the 2 diagonals
entirely `player`. -/
def checkSmallBoardWin (board : SmallBoard) (player : Sign) : Bool :=
  ((List.range boardRowQuantity).any (fun i =>
      (board.getD i []).all (fun c => c == player)
      || board.all (fun row => row.getD i Sign.E == player)))
  || (cellAt board 0 2 == player && cellAt board 1 1 == player
        && cellAt board 2 0 == player)
  || (cellAt board 0 0 == player && cellAt board 1 1 == player
        && cellAt board 2 2 == player)

/-- `checkWin` on the winner-board: same 3-row/3-column/2-diagonal test. -/
def checkWin (winBoard : SmallBoard) (player : Sign) : Bool :=
  ((List.range boardRowQuantity).any (fun i =>
      (winBoard.getD i []).all (fun c => c == player)
      || winBoard.all (fun row => row.getD i Sign.E == player)))
  || (cellAt winBoard 0 2 == player && cellAt winBoard 1 1 == player
        && cellAt winBoard 2 0 == player)
  || (cellAt winBoard 0 0 == player && cellAt winBoard 1 1 == player
        && cellAt winBoard 2 2 == player)

/-- `canMoveToSmallBoard`: the reduce-count of empty cells is positive and
neither mark has already won the small board. -/
def canMoveToSmallBoard (board : SmallBoard) : Bool :=
  let emptyCells :=
    board.foldl
      (fun acc row => acc + row.foldl
        (fun a c => a + (if c == Sign.E then 1 else 0)) 0)
      0
  decide (0 < emptyCells)
    && !checkSmallBoardWin board Sign.X
    && !checkSmallBoardWin board Sign.O

/-- `getNextBoardIndex`: `index = row * 3 + col`; `null` when that small board
is won by either mark or has no empty cell, otherwise `index`. -/
def getNextBoardIndex (board : Board) (row col : Nat) : Option Nat :=
  let index := row * 3 + col
  if checkSmallBoardWin (board.getD index []) Sign.X
      || checkSmallBoardWin (board.getD index []) Sign.O
      || (getEmptyCellIndexes (board.getD index [])).length == 0
  then none
  else some index

/-- `isValidMove`. -/
def isValidMove (smallBoardIndex row col : Nat) (gameOver : Bool)
    (board : Board) (currentBoard : Option Nat)
    (currentPlayer player : Sign) : Bool :=
  let freeCell := cellAt3 board smallBoardIndex row col == Sign.E
  let validBoardIndex := currentBoard == none || currentBoard == some smallBoardIndex
  let validBoard := canMoveToSmallBoard (board.getD smallBoardIndex [])
  let validPlayer := currentPlayer == player
  freeCell && validBoardIndex && validBoard && validPlayer && !gameOver

/-- `checkTie`: false as soon as some `(i, j)` has an empty winner-board cell
whose flat index `i*3+j` occurs among the winner-board's empty-cell indices. -/
def checkTie (winnerBoard : SmallBoard) : Bool :=
  !((List.range boardRowQuantity).any (fun i =>
      (List.range boardRowQuantity).any (fun j =>
        cellAt winnerBoard i j == Sign.E
          && (getEmptyCellIndexes winnerBoard).contains (i * 3 + j))))

/-- The JS write `wb[r][c] = s`, embedded with `List.set` (in-range or no-op,
as on a well-formed 3×3 grid the index is always in range). -/
def setCell2 (b : SmallBoard) (r c : Nat) (s : Sign) : SmallBoard :=
  b.set r ((b.getD r []).set c s)

/-- Loop body of `getWinnerBoard`: place the winner of small board `i`
(if any) at `winBoard[i / 3][i % 3]`. -/
def winStep (board : Board) (winBoard : SmallBoard) (i : Nat) : SmallBoard :=
  let x := i % 3
  let y := i / 3
  if checkSmallBoardWin (board.getD i []) Sign.X then
    setCell2 winBoard y x Sign.X
  else if checkSmallBoardWin (board.getD i []) Sign.O then
    setCell2 winBoard y x Sign.O
  else
    winBoard

/-- `getWinnerBoard`: fill an empty small board by the loop
`for i in [0, board.length)`. -/
def getWinnerBoard (board : Board) : SmallBoard :=
  (List.range board.length).foldl (winStep board) getEmptySmallBoard

/-- The JS write `game.board[i][r][c] = s`. -/
def setCell3 (bd : Board) (i r c : Nat) (s : Sign) : Board :=
  bd.set i ((bd.getD i []).set r (((bd.getD i []).getD r []).set c s))

/-- `type Position = { smallBoard: number; row: number; cell: number }`. -/
structure Position where
  smallBoard : Nat
  row : Nat
  cell : Nat
deriving DecidableEq, Repr

/-- `type Player = { id: string; sign: Sign }`. -/
structure Player where
  id : String
  sign : Sign
deriving DecidableEq, Repr

/-- `type Game`. -/
structure Game where
  players : List Player
  board : Board
  currentPlayer : Sign
  currentBoard : Option Nat
  gameOver : Bool
  winner : Option Sign
  isTie : Bool
deriving DecidableEq, Repr

/-- The full game snapshot carried by `move-made` / `game-restarted`. -/
structure Snapshot where
  board : Board
  currentPlayer : Sign
  currentBoard : Option Nat
  winner : Option Sign
  isTie : Bool
  gameOver : Bool
deriving DecidableEq, Repr

def mkSnapshot (g : Game) : Snapshot :=
  { board := g.board
    currentPlayer := g.currentPlayer
    currentBoard := g.currentBoard
    winner := g.winner
    isTie := g.isTie
    gameOver := g.gameOver }

/-- Messages the handlers emit (`socket.emit('error', …)` to one socket,
room-wide broadcasts for `move-made` and `game-restarted`). -/
inductive Emit where
  | errorTo (sid : String) (msg : String)
  | moveMade (room : String) (snap : Snapshot)
  | gameRestarted (room : String) (snap : Snapshot)
deriving DecidableEq, Repr

/-- The `games` map (room code to game). -/
abbrev RoomMap := String → Option Game

def updateRoom (games : RoomMap) (room : String) (g : Game) : RoomMap :=
  fun r => if r = room then some g else games r

/-- The fresh game stored by the `create-room` handler (creator seated as X). -/
def createGame (pid : String) : Game :=
  { players := [⟨pid, Sign.X⟩]
    board := getDefaultBoard
    currentPlayer := Sign.X
    currentBoard := none
    gameOver := false
    winner := none
    isTie := false }

/-- The field resets performed by the `restart-game` handler. -/
def resetGame (g : Game) : Game :=
  { g with
    board := getDefaultBoard
    currentPlayer := Sign.X
    currentBoard := none
    gameOver := false
    winner := none
    isTie := false }

/-- Lines 137–152 of the `make-move` handler: write the mark, recompute the
winner-board, set winner / tie / flipped turn, then either set `gameOver` or
recompute the forced board. -/
def applyMoveCore (g : Game) (pos : Position) (currentPlayer : Sign) : Game :=
  let board := setCell3 g.board pos.smallBoard pos.row pos.cell currentPlayer
  let winBoard := getWinnerBoard board
  let g1 :=
    if checkWin winBoard currentPlayer then
      { g with board := board, winner := some currentPlayer }
    else if checkTie winBoard then
      { g with board := board, isTie := true }
    else
      { g with board := board
               currentPlayer := if currentPlayer == Sign.X then Sign.O else Sign.X }
  if g1.winner != none || g1.isTie then
    { g1 with gameOver := true }
  else
    { g1 with currentBoard := getNextBoardIndex board pos.row pos.cell }

/-- `game.players.find((player) => player.id === socket.id)?.sign`. -/
def foundSign (g : Game) (sid : String) : Option Sign :=
  (g.players.find? (fun p => p.id == sid)).map Player.sign

/-- The `make-move` handler: lookup, seat check (`!currentPlayer` is truthy
for both a missing seat and the empty-string sign), turn check, validation,
then mutation and broadcast. -/
def makeMove (games : RoomMap) (sid room : String) (pos : Position) :
    RoomMap × List Emit :=
  match games room with
  | none => (games, [Emit.errorTo sid "Room not found!"])
  | some game =>
    match foundSign game sid with
    | none => (games, [Emit.errorTo sid "Player not found!"])
    | some currentPlayer =>
      if currentPlayer == Sign.E then
        (games, [Emit.errorTo sid "Player not found!"])
      else if currentPlayer != game.currentPlayer then
        (games, [Emit.errorTo sid "Not your turn!"])
      else if !(isValidMove pos.smallBoard pos.row pos.cell game.gameOver
                  game.board game.currentBoard game.currentPlayer currentPlayer) then
        (games, [Emit.errorTo sid "Invalid move!"])
      else
        let g := applyMoveCore game pos currentPlayer
        (updateRoom games room g, [Emit.moveMade room (mkSnapshot g)])

/-- The `restart-game` handler: `if (game && game.gameOver)` reset and
broadcast, otherwise do nothing at all. -/
def restartGame (games : RoomMap) (room : String) : RoomMap × List Emit :=
  match games room with
  | some game =>
    if game.gameOver then
      let g := resetGame game
      (updateRoom games room g, [Emit.gameRestarted room (mkSnapshot g)])
    else
      (games, [])
  | none => (games, [])

/-- Fallible read `board[i][r][c]`: `none` marks an out-of-bounds access. -/
def cellAt3F (bd : Board) (i r c : Nat) : Option Sign := do
  let sb ← bd.get? i
  let row ← sb.get? r
  row.get? c

/-- Fallible variant of `isValidMove`: every array access is checked, `none`
marks the out-of-bounds/error branch. -/
def isValidMoveF (smallBoardIndex row col : Nat) (gameOver : Bool)
    (board : Board) (currentBoard : Option Nat)
    (currentPlayer player : Sign) : Option Bool := do
  let c ← cellAt3F board smallBoardIndex row col
  let sb ← board.get? smallBoardIndex
  let freeCell := c == Sign.E
  let validBoardIndex := currentBoard == none || currentBoard == some smallBoardIndex
  let validBoard := canMoveToSmallBoard sb
  let validPlayer := currentPlayer == player
  return freeCell && validBoardIndex && validBoard && validPlayer && !gameOver

/-- Fallible variant of the write `game.board[i][r][c] = s`. -/
def setCell3F (bd : Board) (i r c : Nat) (s : Sign) : Option Board := do
  let sb ← bd.get? i
  let row ← sb.get? r
  if c < row.length then
    return bd.set i (sb.set r (row.set c s))
  else
    none

/-- Well-formed small board: a 3×3 grid. -/
def WFSmall (b : SmallBoard) : Prop :=
  b.length = 3 ∧ ∀ r ∈ b, r.length = 3

/-- Well-formed main board: nine well-formed small boards. -/
def WFBoard (bd : Board) : Prop :=
  bd.length = 9 ∧ ∀ b ∈ bd, WFSmall b

instance (b : SmallBoard) : Decidable (WFSmall b) := by
  unfold WFSmall; infer_instance

instance (bd : Board) : Decidable (WFBoard bd) := by
  unfold WFBoard; infer_instance

/-- States reachable from a freshly created game by accepted moves and
restarts (the operations of the engine that replace a game's state). -/
inductive Reachable : Game → Prop where
  | init (pid : String) : Reachable (createGame pid)
  | move {g : Game} (pos : Position) (s : Sign) :
      Reachable g →
      s = g.currentPlayer →
      isValidMove pos.smallBoard pos.row pos.cell g.gameOver g.board
        g.currentBoard g.currentPlayer s = true →
      Reachable (applyMoveCore g pos s)
  | restart {g : Game} :
      Reachable g →
      g.gameOver = true →
      Reachable (resetGame g)

/-- The mark that `getWinnerBoard` places for one small board. -/
def winnerMark (b : SmallBoard) : Sign :=
  if checkSmallBoardWin b Sign.X then Sign.X
  else if checkSmallBoardWin b Sign.O then Sign.O
  else Sign.E

/-- The guard structure of the `make-move` handler: true exactly on the
accepting path (room found, seat found with a truthy sign, the sign matches
the current turn, and `isValidMove` passes). -/
def acceptsMove (games : RoomMap) (sid room : String) (pos : Position) : Bool :=
  match games room with
  | none => false
  | some g =>
    match foundSign g sid with
    | none => false
    | some s =>
      !(s == Sign.E) && !(s != g.currentPlayer)
        && isValidMove pos.smallBoard pos.row pos.cell g.gameOver g.board
             g.currentBoard g.currentPlayer s

/-! ### Sample boards used by the witnesses -/

/-- A completely full small board that neither mark wins (a local draw). -/
def drawnSmall : SmallBoard :=
  [[Sign.X, Sign.X, Sign.O],
   [Sign.O, Sign.O, Sign.X],
   [Sign.X, Sign.O, Sign.X]]

/-- A small board won by X on its top row. -/
def xRowWin : SmallBoard :=
  [[Sign.X, Sign.X, Sign.X],
   [Sign.E, Sign.E, Sign.E],
   [Sign.E, Sign.E, Sign.E]]

/-- A small board won by O on its top row. -/
def oRowWin : SmallBoard :=
  [[Sign.O, Sign.O, Sign.O],
   [Sign.E, Sign.E, Sign.E],
   [Sign.E, Sign.E, Sign.E]]

/-! ### Basic well-formedness and list lemmas -/

theorem wfSmall_of_wfBoard {bd : Board} (hwf : WFBoard bd) {i : Nat}
    (hi : i < 9) : WFSmall (bd.getD i []) := by
  have hlen : i < bd.length := by have := hwf.1; omega
  rw [List.getD_eq_getElem _ _ hlen]
  exact hwf.2 _ (List.getElem_mem hlen)

theorem row_of_wfSmall {b : SmallBoard} (h : WFSmall b) {i : Nat}
    (hi : i < 3) : (b.getD i []).length = 3 := by
  have hlen : i < b.length := by have := h.1; omega
  rw [List.getD_eq_getElem _ _ hlen]
  exact h.2 _ (List.getElem_mem hlen)

theorem foldl_add_map {α : Type} (f : α → Nat) (l : List α) (n : Nat) :
    l.foldl (fun a x => a + f x) n = n + (l.map f).sum := by
  induction l generalizing n with
  | nil => simp
  | cons x xs ih =>
    simp only [List.foldl_cons, List.map_cons, List.sum_cons]
    rw [ih]
    omega

theorem pos_ite_empty (s : Sign) :
    (0 < if s == Sign.E then 1 else 0) ↔ s = Sign.E := by
  cases s <;> simp

/-- The reduce-count of empty cells in `canMoveToSmallBoard` is positive iff
some cell of the grid is the empty mark. -/
theorem emptyCount_pos_iff (b : SmallBoard) :
    (0 < b.foldl
        (fun acc row => acc + row.foldl
          (fun a c => a + (if c == Sign.E then 1 else 0)) 0)
        0)
    ↔ ∃ r ∈ b, ∃ c ∈ r, c = Sign.E := by
  simp only [foldl_add_map, Nat.zero_add, Nat.pos_iff_ne_zero, Ne,
    List.sum_eq_zero_iff, List.mem_map, not_forall]
  constructor
  · rintro ⟨x, ⟨r, hr, rfl⟩, hx⟩
    refine ⟨r, hr, ?_⟩
    simp only [List.sum_eq_zero_iff, List.mem_map, not_forall] at hx
    obtain ⟨y, ⟨c, hc, rfl⟩, hy⟩ := hx
    refine ⟨c, hc, ?_⟩
    by_contra hne
    apply hy
    cases c <;> simp_all
  · rintro ⟨r, hr, c, hc, rfl⟩
    refine ⟨_, ⟨r, hr, rfl⟩, ?_⟩
    simp only [List.sum_eq_zero_iff, List.mem_map, not_forall]
    exact ⟨1, ⟨Sign.E, hc, by simp⟩, by simp⟩

/-- Mem-level description of an empty cell versus indexed description, on a
well-formed 3×3 grid. -/
theorem exists_mem_iff_cellAt {b : SmallBoard} (h : WFSmall b) :
    (∃ r ∈ b, ∃ c ∈ r, c = Sign.E)
    ↔ ∃ i, i < 3 ∧ ∃ j, j < 3 ∧ cellAt b i j = Sign.E := by
  constructor
  · rintro ⟨r, hr, c, hc, rfl⟩
    obtain ⟨i, hi, rfl⟩ := List.mem_iff_getElem.mp hr
    obtain ⟨j, hj, hcell⟩ := List.mem_iff_getElem.mp hc
    have hi3 : i < 3 := by have := h.1; omega
    have hj3 : j < 3 := by
      have := h.2 _ (List.getElem_mem hi)
      omega
    refine ⟨i, hi3, j, hj3, ?_⟩
    unfold cellAt
    rw [List.getD_eq_getElem _ _ hi, List.getD_eq_getElem _ _ hj]
    exact hcell
  · rintro ⟨i, hi, j, hj, hcell⟩
    have hi' : i < b.length := by have := h.1; omega
    have hj' : j < (b.getD i []).length := by rw [row_of_wfSmall h hi]; omega
    unfold cellAt at hcell
    rw [List.getD_eq_getElem _ _ hj'] at hcell
    refine ⟨b.getD i [], ?_, _, List.getElem_mem hj', hcell⟩
    rw [List.getD_eq_getElem _ _ hi']
    exact List.getElem_mem hi'

/-- `canMoveToSmallBoard` on a well-formed small board: some cell is empty and
neither mark has a three-in-a-row. -/
theorem canMoveToSmallBoard_iff {b : SmallBoard} (h : WFSmall b) :
    canMoveToSmallBoard b = true ↔
      ((∃ i, i < 3 ∧ ∃ j, j < 3 ∧ cellAt b i j = Sign.E)
       ∧ checkSmallBoardWin b Sign.X = false
       ∧ checkSmallBoardWin b Sign.O = false) := by
  unfold canMoveToSmallBoard
  simp only [Bool.and_eq_true, Bool.not_eq_true', decide_eq_true_eq]
  rw [emptyCount_pos_iff, exists_mem_iff_cellAt h]
  tauto

/-! ### `getEmptyCellIndexes` -/

theorem mem_getEmptyCellIndexes {b : SmallBoard} {n : Nat} :
    n ∈ getEmptyCellIndexes b ↔
      ∃ i r, b[i]? = some r ∧ ∃ j, r[j]? = some Sign.E ∧ n = j + 3 * i := by
  unfold getEmptyCellIndexes
  simp only [List.mem_flatMap, List.mem_filterMap, List.mem_enum_iff_getElem?,
    Option.ite_none_right_eq_some, Option.some.injEq, boardRowQuantity,
    Prod.exists]
  constructor
  · rintro ⟨i, r, hir, j, s, hjs, hsE, hn⟩
    exact ⟨i, r, hir, j, by rw [hjs, hsE], hn.symm⟩
  · rintro ⟨i, r, hir, j, hje, hn⟩
    exact ⟨i, r, hir, j, Sign.E, hje, rfl, hn.symm⟩

/-- On a well-formed grid, the flat index `i*3+j` occurs among the empty-cell
indices exactly when cell `(i, j)` is empty. -/
theorem mem_getEmptyCellIndexes_wf {b : SmallBoard} (h : WFSmall b)
    {i j : Nat} (hi : i < 3) (hj : j < 3) :
    (i * 3 + j) ∈ getEmptyCellIndexes b ↔ cellAt b i j = Sign.E := by
  rw [mem_getEmptyCellIndexes]
  constructor
  · rintro ⟨i', r, hir, j', hje, hn⟩
    obtain ⟨hi', hr⟩ := List.getElem?_eq_some.mp hir
    obtain ⟨hj', hcell⟩ := List.getElem?_eq_some.mp hje
    have hi3 : i' < 3 := by have := h.1; omega
    have hj3 : j' < 3 := by
      have := h.2 _ (hr ▸ List.getElem_mem hi')
      omega
    have hii : i' = i ∧ j' = j := by omega
    obtain ⟨rfl, rfl⟩ := hii
    unfold cellAt
    rw [List.getD_eq_getElem _ _ hi', hr, List.getD_eq_getElem _ _ hj']
    exact hcell
  · intro hcell
    have hi' : i < b.length := by have := h.1; omega
    have hj' : j < (b.getD i []).length := by rw [row_of_wfSmall h hi]; omega
    refine ⟨i, b.getD i [], ?_, j, ?_, by omega⟩
    · rw [List.getD_eq_getElem _ _ hi']
      exact List.getElem?_eq_getElem hi'
    · rw [List.getElem?_eq_getElem hj']
      unfold cellAt at hcell
      rw [List.getD_eq_getElem _ _ hj'] at hcell
      rw [hcell]

/-- The empty-cell index list of a well-formed grid is empty exactly when no
cell is empty. -/
theorem getEmptyCellIndexes_eq_nil {b : SmallBoard} (h : WFSmall b) :
    getEmptyCellIndexes b = [] ↔
      ∀ i, i < 3 → ∀ j, j < 3 → cellAt b i j ≠ Sign.E := by
  rw [List.eq_nil_iff_forall_not_mem]
  constructor
  · intro hno i hi j hj hcell
    exact hno _ ((mem_getEmptyCellIndexes_wf h hi hj).mpr hcell)
  · intro hall n hn
    obtain ⟨i, r, hir, j, hje, rfl⟩ := mem_getEmptyCellIndexes.mp hn
    obtain ⟨hi', hr⟩ := List.getElem?_eq_some.mp hir
    obtain ⟨hj', hcell⟩ := List.getElem?_eq_some.mp hje
    have hi3 : i < 3 := by have := h.1; omega
    have hj3 : j < 3 := by
      have := h.2 _ (hr ▸ List.getElem_mem hi')
      omega
    refine hall i hi3 j hj3 ?_
    unfold cellAt
    rw [List.getD_eq_getElem _ _ hi', hr, List.getD_eq_getElem _ _ hj']
    exact hcell

/-! ### `getWinnerBoard` -/

theorem getD_set_self {α : Type} (l : List α) (r : Nat) (v : α) (d : α)
    (h : r < l.length) : (l.set r v).getD r d = v := by
  rw [List.getD_eq_getElem?_getD, List.getElem?_set_self h, Option.getD_some]

theorem getD_set_ne {α : Type} (l : List α) {r r' : Nat} (v : α) (d : α)
    (h : r ≠ r') : (l.set r v).getD r' d = l.getD r' d := by
  rw [List.getD_eq_getElem?_getD, List.getElem?_set_ne h,
    ← List.getD_eq_getElem?_getD]

theorem WFSmall_setCell2 {b : SmallBoard} (h : WFSmall b) (r c : Nat)
    (s : Sign) : WFSmall (setCell2 b r c s) := by
  unfold setCell2
  by_cases hlen : r < b.length
  · constructor
    · rw [List.length_set]; exact h.1
    · intro row hrow
      rcases List.mem_or_eq_of_mem_set hrow with hmem | heq
      · exact h.2 _ hmem
      · rw [heq, List.length_set]
        exact row_of_wfSmall h (by have := h.1; omega)
  · rw [List.set_eq_of_length_le (by omega)]
    exact h

theorem cellAt_setCell2_ne {b : SmallBoard} {r c r' c' : Nat}
    (hne : r ≠ r' ∨ c ≠ c') (s : Sign) :
    cellAt (setCell2 b r c s) r' c' = cellAt b r' c' := by
  unfold cellAt setCell2
  by_cases hr : r = r'
  · subst hr
    have hc : c ≠ c' := by tauto
    by_cases hlen : r < b.length
    · rw [getD_set_self _ _ _ _ hlen, getD_set_ne _ _ _ hc]
    · rw [List.set_eq_of_length_le (by omega)]
  · rw [getD_set_ne _ _ _ hr]

theorem cellAt_setCell2_self {b : SmallBoard} {r c : Nat}
    (hr : r < b.length) (hc : c < (b.getD r []).length) (s : Sign) :
    cellAt (setCell2 b r c s) r c = s := by
  unfold cellAt setCell2
  rw [getD_set_self _ _ _ _ hr, getD_set_self _ _ _ _ hc]

theorem WFSmall_winStep {wb : SmallBoard} (h : WFSmall wb) (bd : Board)
    (i : Nat) : WFSmall (winStep bd wb i) := by
  unfold winStep
  split
  · exact WFSmall_setCell2 h _ _ _
  · split
    · exact WFSmall_setCell2 h _ _ _
    · exact h

theorem cellAt_winStep_ne {wb : SmallBoard} (bd : Board) {i y x : Nat}
    (hy : y < 3) (hx : x < 3) (hne : i ≠ 3 * y + x) :
    cellAt (winStep bd wb i) y x = cellAt wb y x := by
  have hpos : i / 3 ≠ y ∨ i % 3 ≠ x := by omega
  unfold winStep
  split
  · exact cellAt_setCell2_ne (by tauto) _
  · split
    · exact cellAt_setCell2_ne (by tauto) _
    · rfl

theorem cellAt_winStep_self {wb : SmallBoard} (h : WFSmall wb) (bd : Board)
    {y x : Nat} (hy : y < 3) (hx : x < 3) :
    cellAt (winStep bd wb (3 * y + x)) y x =
      (if winnerMark (bd.getD (3 * y + x) []) = Sign.E then cellAt wb y x
       else winnerMark (bd.getD (3 * y + x) [])) := by
  have hdiv : (3 * y + x) / 3 = y := by omega
  have hmod : (3 * y + x) % 3 = x := by omega
  have hylen : y < wb.length := by have := h.1; omega
  have hxlen : x < (wb.getD y []).length := by rw [row_of_wfSmall h hy]; omega
  simp only [winStep, winnerMark]
  rw [hdiv, hmod]
  generalize bd.getD (3 * y + x) [] = sb
  cases hX : checkSmallBoardWin sb Sign.X
  <;> cases hO : checkSmallBoardWin sb Sign.O
  <;> simp [hX, hO, cellAt_setCell2_self hylen hxlen]

theorem cellAt_foldl_winStep (bd : Board) (l : List Nat) {wb : SmallBoard}
    (h : WFSmall wb) {y x : Nat} (hy : y < 3) (hx : x < 3) :
    cellAt (l.foldl (winStep bd) wb) y x =
      (if (3 * y + x) ∈ l ∧ winnerMark (bd.getD (3 * y + x) []) ≠ Sign.E
       then winnerMark (bd.getD (3 * y + x) [])
       else cellAt wb y x) := by
  induction l generalizing wb with
  | nil => simp
  | cons i l ih =>
    rw [List.foldl_cons, ih (WFSmall_winStep h bd i)]
    by_cases hi : i = 3 * y + x
    · subst hi
      rw [cellAt_winStep_self h bd hy hx]
      generalize winnerMark (bd.getD (3 * y + x) []) = w
      by_cases hE : w = Sign.E
      · subst hE; simp
      · simp [hE]
    · rw [cellAt_winStep_ne bd hy hx hi]
      have hmem : ((3 * y + x) ∈ i :: l) ↔ ((3 * y + x) ∈ l) := by
        simp [List.mem_cons, Ne.symm hi]
      exact if_congr (by rw [hmem]) rfl rfl

theorem WFSmall_getEmptySmallBoard : WFSmall getEmptySmallBoard := by
  decide

theorem foldl_winStep_wf (bd : Board) (l : List Nat) {wb : SmallBoard}
    (h : WFSmall wb) : WFSmall (l.foldl (winStep bd) wb) := by
  induction l generalizing wb with
  | nil => exact h
  | cons i l ih =>
    rw [List.foldl_cons]
    exact ih (WFSmall_winStep h bd i)

theorem WFSmall_getWinnerBoard (bd : Board) : WFSmall (getWinnerBoard bd) :=
  foldl_winStep_wf bd _ WFSmall_getEmptySmallBoard

theorem getWinnerBoard_cellAt {bd : Board} (hlen : bd.length = 9)
    {y x : Nat} (hy : y < 3) (hx : x < 3) :
    cellAt (getWinnerBoard bd) y x = winnerMark (bd.getD (3 * y + x) []) := by
  unfold getWinnerBoard
  rw [hlen, cellAt_foldl_winStep bd _ WFSmall_getEmptySmallBoard hy hx]
  have hmem : (3 * y + x) ∈ List.range 9 := by
    rw [List.mem_range]; omega
  have hempty : cellAt getEmptySmallBoard y x = Sign.E := by
    interval_cases y <;> interval_cases x <;> rfl
  generalize hw : winnerMark (bd.getD (3 * y + x) []) = w
  by_cases hE : w = Sign.E
  · subst hE; simp [hempty]
  · simp [hE, hmem]

/-! ### `checkTie` -/

/-- On a well-formed winner-board, `checkTie` holds exactly when no cell of
the winner-board is empty. -/
theorem checkTie_iff {wb : SmallBoard} (h : WFSmall wb) :
    checkTie wb = true ↔
      ∀ i, i < 3 → ∀ j, j < 3 → cellAt wb i j ≠ Sign.E := by
  have hA : ((List.range boardRowQuantity).any (fun i =>
      (List.range boardRowQuantity).any (fun j =>
        cellAt wb i j == Sign.E
          && (getEmptyCellIndexes wb).contains (i * 3 + j)))) = true
      ↔ ∃ i, i < 3 ∧ ∃ j, j < 3 ∧ cellAt wb i j = Sign.E := by
    simp only [List.any_eq_true, List.mem_range, Bool.and_eq_true, beq_iff_eq,
      boardRowQuantity]
    constructor
    · rintro ⟨i, hi, j, hj, hcell, hmem⟩
      exact ⟨i, hi, j, hj, hcell⟩
    · rintro ⟨i, hi, j, hj, hcell⟩
      refine ⟨i, hi, j, hj, hcell, ?_⟩
      have hmem := (mem_getEmptyCellIndexes_wf h hi hj).mpr hcell
      simpa using hmem
  unfold checkTie
  rw [Bool.not_eq_true', Bool.eq_false_iff, Ne, hA]
  push_neg
  constructor
  · intro hall i hi j hj
    exact hall i hi j hj
  · intro hall i hi j hj
    exact hall i hi j hj

/-! ### Claims -/

/-- Claim C1: `isValidMove` accepts exactly when the targeted cell is empty,
the active board is unset or equals the targeted small-board index, the
targeted small board has no three-in-a-row for either mark and still has an
empty cell, the requesting mark equals the current-turn mark, and the game is
not over.  (In particular a full-but-undecided small board fails the
empty-cell conjunct, so it is not playable.) -/
theorem claim_C1_isValidMove_iff (idx row col : Nat) (go : Bool) (bd : Board)
    (cb : Option Nat) (cp pl : Sign) (hwf : WFBoard bd) (hidx : idx < 9) :
    isValidMove idx row col go bd cb cp pl = true ↔
      (cellAt3 bd idx row col = Sign.E
       ∧ (cb = none ∨ cb = some idx)
       ∧ checkSmallBoardWin (bd.getD idx []) Sign.X = false
       ∧ checkSmallBoardWin (bd.getD idx []) Sign.O = false
       ∧ (∃ i, i < 3 ∧ ∃ j, j < 3 ∧ cellAt (bd.getD idx []) i j = Sign.E)
       ∧ cp = pl
       ∧ go = false) := by
  have hsb := wfSmall_of_wfBoard hwf hidx
  unfold isValidMove
  simp only [Bool.and_eq_true, Bool.not_eq_true', beq_iff_eq, Bool.or_eq_true]
  rw [canMoveToSmallBoard_iff hsb]
  tauto

/-- Witness for C1 at the fresh board, targeting the centre cell of the
centre small board with no forced board. -/
theorem claim_C1_witness :
    WFBoard getDefaultBoard ∧ (4 : Nat) < 9 ∧
      (isValidMove 4 1 1 false getDefaultBoard none Sign.X Sign.X = true ↔
        (cellAt3 getDefaultBoard 4 1 1 = Sign.E
         ∧ ((none : Option Nat) = none ∨ (none : Option Nat) = some 4)
         ∧ checkSmallBoardWin (getDefaultBoard.getD 4 []) Sign.X = false
         ∧ checkSmallBoardWin (getDefaultBoard.getD 4 []) Sign.O = false
         ∧ (∃ i, i < 3 ∧ ∃ j, j < 3
              ∧ cellAt (getDefaultBoard.getD 4 []) i j = Sign.E)
         ∧ Sign.X = Sign.X
         ∧ false = false)) :=
  ⟨by decide, by decide,
    claim_C1_isValidMove_iff 4 1 1 false getDefaultBoard none Sign.X Sign.X
      (by decide) (by decide)⟩

/-- Claim C2: `checkTie` holds exactly when the winner-board has no empty
cell; and a main board containing a full-but-undecided small board has an
empty winner-board cell, so `checkTie` on its winner-board is false even when
no legal move remains anywhere. -/
theorem claim_C2_checkTie (wb : SmallBoard) (bd : Board) (idx : Nat)
    (hwb : WFSmall wb) (hbd : WFBoard bd) (hidx : idx < 9)
    (hfull : getEmptyCellIndexes (bd.getD idx []) = [])
    (hnX : checkSmallBoardWin (bd.getD idx []) Sign.X = false)
    (hnO : checkSmallBoardWin (bd.getD idx []) Sign.O = false) :
    (checkTie wb = true ↔ ∀ i, i < 3 → ∀ j, j < 3 → cellAt wb i j ≠ Sign.E)
    ∧ checkTie (getWinnerBoard bd) = false := by
  refine ⟨checkTie_iff hwb, ?_⟩
  have hcell : cellAt (getWinnerBoard bd) (idx / 3) (idx % 3) = Sign.E := by
    rw [getWinnerBoard_cellAt hbd.1 (by omega) (by omega)]
    have hidx' : 3 * (idx / 3) + idx % 3 = idx := Nat.div_add_mod idx 3
    rw [hidx']
    unfold winnerMark
    rw [hnX, hnO]
    simp
  cases hb : checkTie (getWinnerBoard bd) with
  | false => rfl
  | true =>
    have := (checkTie_iff (WFSmall_getWinnerBoard bd)).mp hb
      (idx / 3) (by omega) (idx % 3) (by omega)
    exact absurd hcell this

/-- Witness for C2: an all-X winner-board is tied, and a main board made of
nine locally drawn small boards (no legal move anywhere) is not tied. -/
theorem claim_C2_witness :
    (checkTie [[Sign.X, Sign.X, Sign.X], [Sign.X, Sign.X, Sign.X],
        [Sign.X, Sign.X, Sign.X]] = true ↔
      ∀ i, i < 3 → ∀ j, j < 3 →
        cellAt [[Sign.X, Sign.X, Sign.X], [Sign.X, Sign.X, Sign.X],
          [Sign.X, Sign.X, Sign.X]] i j ≠ Sign.E)
    ∧ checkTie (getWinnerBoard (List.replicate 9 drawnSmall)) = false :=
  claim_C2_checkTie
    [[Sign.X, Sign.X, Sign.X], [Sign.X, Sign.X, Sign.X],
      [Sign.X, Sign.X, Sign.X]]
    (List.replicate 9 drawnSmall) 0
    (by decide) (by decide) (by decide) (by decide) (by decide) (by decide)

/-- Claim C7: every winner-board cell: for each small board index `i` the
grid cell in row `i / 3` and column `i mod 3` — the position the source calls
`(x, y) = (i mod 3, i / 3)` — carries the mark with a three-in-a-row in small
board `i`, and the empty mark when neither wins.  (`getWinnerBoard` is a pure
function of the main board recomputed at each call; the `Game` record stores
no winner-board.) -/
theorem claim_C7_getWinnerBoard_cell (bd : Board) (i : Nat)
    (hwf : WFBoard bd) (hi : i < 9) :
    cellAt (getWinnerBoard bd) (i / 3) (i % 3) =
      (if checkSmallBoardWin (bd.getD i []) Sign.X = true then Sign.X
       else if checkSmallBoardWin (bd.getD i []) Sign.O = true then Sign.O
       else Sign.E) := by
  rw [getWinnerBoard_cellAt hwf.1 (by omega) (by omega), Nat.div_add_mod i 3]
  rfl

/-- Witness for C7: small board 1 is won by O, and the winner-board carries O
in row 0, column 1. -/
theorem claim_C7_witness :
    cellAt (getWinnerBoard
        (getEmptySmallBoard :: oRowWin :: List.replicate 7 getEmptySmallBoard))
        (1 / 3) (1 % 3) =
      (if checkSmallBoardWin
            ((getEmptySmallBoard :: oRowWin
                :: List.replicate 7 getEmptySmallBoard).getD 1 [])
            Sign.X = true then Sign.X
       else if checkSmallBoardWin
            ((getEmptySmallBoard :: oRowWin
                :: List.replicate 7 getEmptySmallBoard).getD 1 [])
            Sign.O = true then Sign.O
       else Sign.E) :=
  claim_C7_getWinnerBoard_cell
    (getEmptySmallBoard :: oRowWin :: List.replicate 7 getEmptySmallBoard) 1
    (by decide) (by decide)

/-- Claim C3: after an accepted move at inner position `(row, col)` that does
not end the game, the active board becomes `row*3+col` when the small board
at that index of the post-move board is undecided and has an empty cell, and
unset (`none`) otherwise — the selection uses the move's row/col coordinates,
never the `smallBoard` index that was played in. -/
theorem claim_C3_next_board (g : Game) (pos : Position) (s : Sign)
    (hw : g.winner = none) (ht : g.isTie = false) (hs : s = g.currentPlayer)
    (hv : isValidMove pos.smallBoard pos.row pos.cell g.gameOver g.board
      g.currentBoard g.currentPlayer s = true)
    (hnw : checkWin (getWinnerBoard
      (setCell3 g.board pos.smallBoard pos.row pos.cell s)) s = false)
    (hnt : checkTie (getWinnerBoard
      (setCell3 g.board pos.smallBoard pos.row pos.cell s)) = false) :
    (applyMoveCore g pos s).currentBoard =
      (if checkSmallBoardWin ((setCell3 g.board pos.smallBoard pos.row
            pos.cell s).getD (pos.row * 3 + pos.cell) []) Sign.X = false
          ∧ checkSmallBoardWin ((setCell3 g.board pos.smallBoard pos.row
            pos.cell s).getD (pos.row * 3 + pos.cell) []) Sign.O = false
          ∧ getEmptyCellIndexes ((setCell3 g.board pos.smallBoard pos.row
            pos.cell s).getD (pos.row * 3 + pos.cell) []) ≠ []
       then some (pos.row * 3 + pos.cell)
       else none) := by
  unfold applyMoveCore
  simp only [hnw, hnt, hw, ht, Bool.false_eq_true, if_false,
    bne_self_eq_false, Bool.or_self]
  unfold getNextBoardIndex
  simp only []
  generalize (setCell3 g.board pos.smallBoard pos.row pos.cell s).getD
    (pos.row * 3 + pos.cell) [] = sb
  cases hX : checkSmallBoardWin sb Sign.X
  <;> cases hO : checkSmallBoardWin sb Sign.O
  <;> cases hn : getEmptyCellIndexes sb
  <;> simp [hX, hO, hn]

/-- Witness for C3: the first move of a fresh game in the centre cell of the
centre small board forces the opponent to small board 4. -/
theorem claim_C3_witness :
    (applyMoveCore (createGame "a") ⟨4, 1, 1⟩ Sign.X).currentBoard =
      (if checkSmallBoardWin ((setCell3 (createGame "a").board 4 1 1
            Sign.X).getD (1 * 3 + 1) []) Sign.X = false
          ∧ checkSmallBoardWin ((setCell3 (createGame "a").board 4 1 1
            Sign.X).getD (1 * 3 + 1) []) Sign.O = false
          ∧ getEmptyCellIndexes ((setCell3 (createGame "a").board 4 1 1
            Sign.X).getD (1 * 3 + 1) []) ≠ []
       then some (1 * 3 + 1)
       else none) :=
  claim_C3_next_board (createGame "a") ⟨4, 1, 1⟩ Sign.X rfl rfl rfl
    (by decide) (by decide) (by decide)

/-- A `make-move` request that does not take the accepting path leaves the
room map untouched. -/
theorem makeMove_fst_of_not_accepts (games : RoomMap) (sid room : String)
    (pos : Position) (h : acceptsMove games sid room pos = false) :
    (makeMove games sid room pos).1 = games := by
  unfold makeMove
  unfold acceptsMove at h
  cases hg : games room with
  | none => rfl
  | some g =>
    rw [hg] at h
    dsimp only at h ⊢
    cases hf : foundSign g sid with
    | none => rfl
    | some s =>
      rw [hf] at h
      dsimp only at h ⊢
      by_cases hE : (s == Sign.E) = true
      · rw [if_pos hE]
      · rw [if_neg hE]
        by_cases hT : (s != g.currentPlayer) = true
        · rw [if_pos hT]
        · rw [if_neg hT]
          have hE' : (s == Sign.E) = false := by
            cases hx : s == Sign.E
            · rfl
            · exact absurd hx hE
          have hT' : (s != g.currentPlayer) = false := by
            cases hx : s != g.currentPlayer
            · rfl
            · exact absurd hx hT
          rw [hE', hT'] at h
          simp only [Bool.not_false, Bool.true_and] at h
          simp [h]

/-- Claim C4: a rejected `make-move` attempt — room not found, submitter not
seated (or seated with a falsy sign), not the submitter's turn, or failing
validation — leaves the room map, and hence every game field, exactly as it
was. -/
theorem claim_C4_reject_no_mutation (games : RoomMap) (sid room : String)
    (pos : Position) (h : acceptsMove games sid room pos = false) :
    (makeMove games sid room pos).1 = games :=
  makeMove_fst_of_not_accepts games sid room pos h

/-- Witness for C4: a move sent to a room code with no game is rejected and
the room map is untouched. -/
theorem claim_C4_witness :
    acceptsMove (fun _ => none) "s1" "AAAAA" ⟨4, 1, 1⟩ = false
    ∧ (makeMove (fun _ => none) "s1" "AAAAA" ⟨4, 1, 1⟩).1 = fun _ => none :=
  ⟨rfl, claim_C4_reject_no_mutation (fun _ => none) "s1" "AAAAA" ⟨4, 1, 1⟩ rfl⟩

/-- Claim C5: from a terminal game (`gameOver` true) the restart transition
stores a game whose board is the initial empty board, whose turn is X, whose
active board is unset and whose `gameOver`/`winner`/`isTie` are cleared;
from a non-terminal game the restart request does nothing. -/
theorem claim_C5_restart (games : RoomMap) (room : String) (g : Game)
    (hroom : games room = some g) :
    (g.gameOver = true →
      (restartGame games room).1 room = some (resetGame g)
      ∧ (resetGame g).board = getDefaultBoard
      ∧ (resetGame g).currentPlayer = Sign.X
      ∧ (resetGame g).currentBoard = none
      ∧ (resetGame g).gameOver = false
      ∧ (resetGame g).winner = none
      ∧ (resetGame g).isTie = false)
    ∧ (g.gameOver = false → restartGame games room = (games, [])) := by
  constructor
  · intro hgo
    refine ⟨?_, rfl, rfl, rfl, rfl, rfl, rfl⟩
    unfold restartGame
    rw [hroom]
    simp only [hgo, if_true]
    unfold updateRoom
    simp
  · intro hgo
    unfold restartGame
    rw [hroom]
    simp [hgo]

/-- Witness for C5: restarting a room whose game was won by O yields the
fresh state. -/
theorem claim_C5_witness :
    ((Game.mk [] getDefaultBoard Sign.O (some 3) true (some Sign.O)
          false).gameOver = true →
      (restartGame (fun _ => some (Game.mk [] getDefaultBoard Sign.O (some 3)
          true (some Sign.O) false)) "R").1 "R" =
        some (resetGame (Game.mk [] getDefaultBoard Sign.O (some 3) true
          (some Sign.O) false))
      ∧ (resetGame (Game.mk [] getDefaultBoard Sign.O (some 3) true
          (some Sign.O) false)).board = getDefaultBoard
      ∧ (resetGame (Game.mk [] getDefaultBoard Sign.O (some 3) true
          (some Sign.O) false)).currentPlayer = Sign.X
      ∧ (resetGame (Game.mk [] getDefaultBoard Sign.O (some 3) true
          (some Sign.O) false)).currentBoard = none
      ∧ (resetGame (Game.mk [] getDefaultBoard Sign.O (some 3) true
          (some Sign.O) false)).gameOver = false
      ∧ (resetGame (Game.mk [] getDefaultBoard Sign.O (some 3) true
          (some Sign.O) false)).winner = none
      ∧ (resetGame (Game.mk [] getDefaultBoard Sign.O (some 3) true
          (some Sign.O) false)).isTie = false)
    ∧ ((Game.mk [] getDefaultBoard Sign.O (some 3) true (some Sign.O)
          false).gameOver = false →
      restartGame (fun _ => some (Game.mk [] getDefaultBoard Sign.O (some 3)
          true (some Sign.O) false)) "R" =
        (fun _ => some (Game.mk [] getDefaultBoard Sign.O (some 3) true
          (some Sign.O) false), [])) :=
  claim_C5_restart _ "R" _ rfl

/-- Claim C10: a `restart-game` request for an unknown room code, or for a
room whose game is not over, changes no state and emits nothing at all. -/
theorem claim_C10_restart_silent (games : RoomMap) (room : String)
    (h : ∀ g, games room = some g → g.gameOver = false) :
    restartGame games room = (games, []) := by
  unfold restartGame
  cases hg : games room with
  | none => rfl
  | some g => simp [h g hg]

/-- Witness for C10: restarting an unknown room is a silent no-op. -/
theorem claim_C10_witness :
    restartGame (fun _ => none) "ZZZZZ" = (fun _ => none, []) :=
  claim_C10_restart_silent (fun _ => none) "ZZZZZ"
    (fun g hg => by cases hg)

/-- Claim C9: an accepted move that ends the game (the acting mark wins the
winner-board, or the tie check succeeds) leaves `currentPlayer` and
`currentBoard` exactly as they were before the move — the turn is not
flipped and the forced board is not recomputed — and those stale values are
the ones carried in the `move-made` broadcast snapshot. -/
theorem claim_C9_terminal_move_frame (games : RoomMap) (sid room : String)
    (pos : Position) (g : Game) (s : Sign)
    (hroom : games room = some g)
    (hfound : foundSign g sid = some s)
    (hE : (s == Sign.E) = false)
    (hturn : (s != g.currentPlayer) = false)
    (hv : isValidMove pos.smallBoard pos.row pos.cell g.gameOver g.board
      g.currentBoard g.currentPlayer s = true)
    (hend : checkWin (getWinnerBoard
        (setCell3 g.board pos.smallBoard pos.row pos.cell s)) s = true
      ∨ (checkWin (getWinnerBoard
            (setCell3 g.board pos.smallBoard pos.row pos.cell s)) s = false
         ∧ checkTie (getWinnerBoard
            (setCell3 g.board pos.smallBoard pos.row pos.cell s)) = true)) :
    makeMove games sid room pos =
      (updateRoom games room (applyMoveCore g pos s),
        [Emit.moveMade room (mkSnapshot (applyMoveCore g pos s))])
    ∧ (mkSnapshot (applyMoveCore g pos s)).currentPlayer = g.currentPlayer
    ∧ (mkSnapshot (applyMoveCore g pos s)).currentBoard = g.currentBoard
    ∧ (mkSnapshot (applyMoveCore g pos s)).gameOver = true := by
  constructor
  · unfold makeMove
    rw [hroom]
    dsimp only
    rw [hfound]
    dsimp only
    rw [if_neg (by simp [hE]), if_neg (by simp [hturn]),
      if_neg (by simp [hv])]
  · rcases hend with hwin | ⟨hnw, htie⟩
    · unfold applyMoveCore mkSnapshot
      simp [hwin]
    · unfold applyMoveCore mkSnapshot
      simp [hnw, htie]

/-- Witness for C9: with small boards 0 and 1 already won by X, X completes
the winner-board top row by winning small board 2; turn and active board are
not updated. -/
theorem claim_C9_witness :
    makeMove (fun _ => some (Game.mk [Player.mk "a" Sign.X]
        (xRowWin :: xRowWin :: [[Sign.X, Sign.X, Sign.E],
          [Sign.E, Sign.E, Sign.E], [Sign.E, Sign.E, Sign.E]]
          :: List.replicate 6 getEmptySmallBoard)
        Sign.X none false none false)) "a" "R" ⟨2, 0, 2⟩ =
      (updateRoom (fun _ => some (Game.mk [Player.mk "a" Sign.X]
          (xRowWin :: xRowWin :: [[Sign.X, Sign.X, Sign.E],
            [Sign.E, Sign.E, Sign.E], [Sign.E, Sign.E, Sign.E]]
            :: List.replicate 6 getEmptySmallBoard)
          Sign.X none false none false)) "R"
          (applyMoveCore (Game.mk [Player.mk "a" Sign.X]
            (xRowWin :: xRowWin :: [[Sign.X, Sign.X, Sign.E],
              [Sign.E, Sign.E, Sign.E], [Sign.E, Sign.E, Sign.E]]
              :: List.replicate 6 getEmptySmallBoard)
            Sign.X none false none false) ⟨2, 0, 2⟩ Sign.X),
        [Emit.moveMade "R" (mkSnapshot (applyMoveCore (Game.mk
            [Player.mk "a" Sign.X]
            (xRowWin :: xRowWin :: [[Sign.X, Sign.X, Sign.E],
              [Sign.E, Sign.E, Sign.E], [Sign.E, Sign.E, Sign.E]]
              :: List.replicate 6 getEmptySmallBoard)
            Sign.X none false none false) ⟨2, 0, 2⟩ Sign.X))])
    ∧ (mkSnapshot (applyMoveCore (Game.mk [Player.mk "a" Sign.X]
        (xRowWin :: xRowWin :: [[Sign.X, Sign.X, Sign.E],
          [Sign.E, Sign.E, Sign.E], [Sign.E, Sign.E, Sign.E]]
          :: List.replicate 6 getEmptySmallBoard)
        Sign.X none false none false) ⟨2, 0, 2⟩ Sign.X)).currentPlayer =
      (Game.mk [Player.mk "a" Sign.X]
        (xRowWin :: xRowWin :: [[Sign.X, Sign.X, Sign.E],
          [Sign.E, Sign.E, Sign.E], [Sign.E, Sign.E, Sign.E]]
          :: List.replicate 6 getEmptySmallBoard)
        Sign.X none false none false).currentPlayer
    ∧ (mkSnapshot (applyMoveCore (Game.mk [Player.mk "a" Sign.X]
        (xRowWin :: xRowWin :: [[Sign.X, Sign.X, Sign.E],
          [Sign.E, Sign.E, Sign.E], [Sign.E, Sign.E, Sign.E]]
          :: List.replicate 6 getEmptySmallBoard)
        Sign.X none false none false) ⟨2, 0, 2⟩ Sign.X)).currentBoard =
      (Game.mk [Player.mk "a" Sign.X]
        (xRowWin :: xRowWin :: [[Sign.X, Sign.X, Sign.E],
          [Sign.E, Sign.E, Sign.E], [Sign.E, Sign.E, Sign.E]]
          :: List.replicate 6 getEmptySmallBoard)
        Sign.X none false none false).currentBoard
    ∧ (mkSnapshot (applyMoveCore (Game.mk [Player.mk "a" Sign.X]
        (xRowWin :: xRowWin :: [[Sign.X, Sign.X, Sign.E],
          [Sign.E, Sign.E, Sign.E], [Sign.E, Sign.E, Sign.E]]
          :: List.replicate 6 getEmptySmallBoard)
        Sign.X none false none false) ⟨2, 0, 2⟩ Sign.X)).gameOver = true :=
  claim_C9_terminal_move_frame _ "a" "R" ⟨2, 0, 2⟩ _ Sign.X rfl (by decide)
    (by decide) (by decide) (by decide) (by decide)

/-- Claim C8: with `smallBoardIndex ≤ 8` and `row, col ≤ 2` on a well-formed
board, every array access of the validator and of the cell write is in
bounds: the fallible embeddings return `some` and agree with the total
embeddings used elsewhere. -/
theorem claim_C8_bounds_safe (bd : Board) (i r c : Nat) (s : Sign)
    (go : Bool) (cb : Option Nat) (cp pl : Sign) (hwf : WFBoard bd)
    (hi : i ≤ 8) (hr : r ≤ 2) (hc : c ≤ 2) :
    isValidMoveF i r c go bd cb cp pl
      = some (isValidMove i r c go bd cb cp pl)
    ∧ setCell3F bd i r c s = some (setCell3 bd i r c s) := by
  have hi' : i < bd.length := by have := hwf.1; omega
  have hsb : WFSmall (bd.getD i []) := wfSmall_of_wfBoard hwf (by omega)
  have hr' : r < (bd.getD i []).length := by have := hsb.1; omega
  have hc' : c < ((bd.getD i []).getD r []).length := by
    rw [row_of_wfSmall hsb (by omega)]; omega
  have h1 : bd.get? i = some (bd.getD i []) := by
    rw [List.get?_eq_getElem?, List.getD_eq_getElem _ _ hi']
    exact List.getElem?_eq_getElem hi'
  have h2 : (bd.getD i []).get? r = some ((bd.getD i []).getD r []) := by
    rw [List.get?_eq_getElem?, List.getD_eq_getElem _ _ hr']
    exact List.getElem?_eq_getElem hr'
  have h3 : ((bd.getD i []).getD r []).get? c
      = some (((bd.getD i []).getD r []).getD c Sign.E) := by
    rw [List.get?_eq_getElem?, List.getD_eq_getElem _ _ hc']
    exact List.getElem?_eq_getElem hc'
  constructor
  · unfold isValidMoveF cellAt3F isValidMove cellAt3 cellAt
    rw [h1]
    simp only [Option.bind_eq_bind, Option.some_bind]
    rw [h2]
    simp only [Option.some_bind]
    rw [h3]
    simp only [Option.some_bind]
    rfl
  · unfold setCell3F setCell3
    rw [h1]
    simp only [Option.bind_eq_bind, Option.some_bind]
    rw [h2]
    simp only [Option.some_bind]
    rw [if_pos hc']
    rfl

/-- Witness for C8 at the last cell of the last small board of the fresh
board. -/
theorem claim_C8_witness :
    isValidMoveF 8 2 2 false getDefaultBoard none Sign.X Sign.O
      = some (isValidMove 8 2 2 false getDefaultBoard none Sign.X Sign.O)
    ∧ setCell3F getDefaultBoard 8 2 2 Sign.O
      = some (setCell3 getDefaultBoard 8 2 2 Sign.O) :=
  claim_C8_bounds_safe getDefaultBoard 8 2 2 Sign.O false none Sign.X Sign.O
    (by decide) (by decide) (by decide) (by decide)

/-! ### Reachability invariant (C6) -/

theorem isValidMove_true_gameOver {i r c : Nat} {go : Bool} {bd : Board}
    {cb : Option Nat} {cp pl : Sign}
    (h : isValidMove i r c go bd cb cp pl = true) : go = false := by
  unfold isValidMove at h
  simp only [Bool.and_eq_true, Bool.not_eq_true'] at h
  exact h.2

theorem isValidMove_gameOver_false (i r c : Nat) (bd : Board)
    (cb : Option Nat) (cp pl : Sign) :
    isValidMove i r c true bd cb cp pl = false := by
  unfold isValidMove
  simp

theorem acceptsMove_false_of_gameOver {g : Game} (hgo : g.gameOver = true)
    (games : RoomMap) (sid room : String) (pos : Position)
    (hroom : games room = some g) :
    acceptsMove games sid room pos = false := by
  unfold acceptsMove
  rw [hroom]
  dsimp only
  cases hf : foundSign g sid with
  | none => rfl
  | some s =>
    dsimp only
    rw [hgo, isValidMove_gameOver_false, Bool.and_false]

theorem makeMove_noop_of_gameOver {g : Game} (hgo : g.gameOver = true)
    (games : RoomMap) (sid room : String) (pos : Position)
    (hroom : games room = some g) :
    (makeMove games sid room pos).1 = games :=
  makeMove_fst_of_not_accepts games sid room pos
    (acceptsMove_false_of_gameOver hgo games sid room pos hroom)

theorem inv_applyMoveCore (g : Game) (pos : Position) (s : Sign)
    (hw : g.winner = none) (ht : g.isTie = false)
    (hgo : g.gameOver = false) :
    ¬((applyMoveCore g pos s).winner ≠ none
        ∧ (applyMoveCore g pos s).isTie = true)
    ∧ (((applyMoveCore g pos s).winner ≠ none
        ∨ (applyMoveCore g pos s).isTie = true)
       → (applyMoveCore g pos s).gameOver = true) := by
  unfold applyMoveCore
  by_cases hWin : checkWin (getWinnerBoard
      (setCell3 g.board pos.smallBoard pos.row pos.cell s)) s = true
  · simp [hWin, hw, ht]
  · by_cases hTie : checkTie (getWinnerBoard
        (setCell3 g.board pos.smallBoard pos.row pos.cell s)) = true
    · simp [hWin, hTie, hw, ht]
    · simp [hWin, hTie, hw, ht, hgo]

theorem reachable_inv (g : Game) (h : Reachable g) :
    ¬(g.winner ≠ none ∧ g.isTie = true)
    ∧ ((g.winner ≠ none ∨ g.isTie = true) → g.gameOver = true) := by
  induction h with
  | init pid => simp [createGame]
  | move pos s hre hs hv ih =>
    rename_i g0
    have hgo : g0.gameOver = false := isValidMove_true_gameOver hv
    have hw : g0.winner = none := by
      by_contra hne
      have := ih.2 (Or.inl hne)
      rw [hgo] at this
      cases this
    have ht : g0.isTie = false := by
      cases hx : g0.isTie
      · rfl
      · have := ih.2 (Or.inr hx)
        rw [hgo] at this
        cases this
    exact inv_applyMoveCore g0 pos s hw ht hgo
  | restart hre hgo ih => simp [resetGame]

/-- Claim C6: on every state reachable from a fresh game by accepted moves
and restarts, at most one of winner-set and isTie holds, either one forces
`gameOver`, and from a `gameOver` state no `make-move` request (the only
operation besides restart that touches a game) changes the room map. -/
theorem claim_C6_invariant (g : Game) (h : Reachable g) :
    ¬(g.winner ≠ none ∧ g.isTie = true)
    ∧ ((g.winner ≠ none ∨ g.isTie = true) → g.gameOver = true)
    ∧ (g.gameOver = true → ∀ games : RoomMap, ∀ sid room : String,
        ∀ pos : Position, games room = some g →
          (makeMove games sid room pos).1 = games) :=
  ⟨(reachable_inv g h).1, (reachable_inv g h).2,
    fun hgo games sid room pos hroom =>
      makeMove_noop_of_gameOver hgo games sid room pos hroom⟩

/-- Witness for C6 at the state reached by one accepted centre move from a
fresh game. -/
theorem claim_C6_witness :
    Reachable (applyMoveCore (createGame "p") ⟨4, 1, 1⟩ Sign.X)
    ∧ (¬((applyMoveCore (createGame "p") ⟨4, 1, 1⟩ Sign.X).winner ≠ none
          ∧ (applyMoveCore (createGame "p") ⟨4, 1, 1⟩ Sign.X).isTie = true)
       ∧ (((applyMoveCore (createGame "p") ⟨4, 1, 1⟩ Sign.X).winner ≠ none
            ∨ (applyMoveCore (createGame "p") ⟨4, 1, 1⟩ Sign.X).isTie = true)
          → (applyMoveCore (createGame "p") ⟨4, 1, 1⟩ Sign.X).gameOver = true)
       ∧ ((applyMoveCore (createGame "p") ⟨4, 1, 1⟩ Sign.X).gameOver = true
          → ∀ games : RoomMap, ∀ sid room : String, ∀ pos : Position,
              games room
                  = some (applyMoveCore (createGame "p") ⟨4, 1, 1⟩ Sign.X) →
                (makeMove games sid room pos).1 = games)) :=
  ⟨Reachable.move ⟨4, 1, 1⟩ Sign.X (Reachable.init "p") rfl (by decide),
    claim_C6_invariant (applyMoveCore (createGame "p") ⟨4, 1, 1⟩ Sign.X)
      (Reachable.move ⟨4, 1, 1⟩ Sign.X (Reachable.init "p") rfl (by decide))⟩

end UltimateTTT
